import Mathlib

/-!
Verification development for the WhisperFree push-to-talk dictation core.

Shallow embedding of the session-lifecycle core:
  * `whisperfree/hotkeys.py` — key-name normalisation and the push-to-talk
    hotkey state machine (`_normalise_key`, `HotkeyListener._handle_event`,
    `update_hotkey`, `stop`);
  * `whisperfree/audio.py` — the audio capture buffer (`AudioRecorder.start`,
    `stop`, `get_wav_bytes`);
  * `whisperfree/paste.py` — the clipboard paste protocol (`paste_text`);
  * `whisperfree/app.py` — the session orchestrator
    (`WhisperFreeController._handle_push_to_talk_stop`, `_process_session`).

Python strings are modelled as Lean `String`/`List Char` with ASCII-level
models of `str.lower`, `str.strip`, `str.replace` and single-character
operations; monotonic-clock timestamps are modelled as integers (the debounce
logic uses only subtraction and order comparison, so any ordered abelian group
of time values is faithful);
byte strings are modelled as `List Nat` with every element below 256 by
construction; external-effect calls (toasts, Qt signals, executor submission,
clipboard, keystroke injection, history store) are modelled as an emitted
trace of actions, with the fallible external operations (opening the input
stream, clipboard copy, keystroke send) supplied as boolean oracles.
-/

/-! ## Python string primitives -/

/-- Model of ASCII lowercasing of one character, as `str.lower` acts on the
ASCII range: codepoints 65–90 are shifted by 32, everything else is kept. -/
def pyLowerChar (c : Char) : Char :=
  if h : 65 ≤ c.toNat ∧ c.toNat ≤ 90 then
    ⟨c.val + 32, by
      show (c.val + 32).toNat.isValidChar
      have h32 : (32 : UInt32).toNat = 32 := rfl
      have hadd : (c.val + 32).toNat = (c.val.toNat + (32 : UInt32).toNat) % UInt32.size :=
        UInt32.toNat_add c.val 32
      have hsz : UInt32.size = 4294967296 := rfl
      have h2 : (c.val + 32).toNat = c.toNat + 32 := by
        rw [hadd, h32, hsz]
        have hb := h.2
        unfold Char.toNat at hb ⊢
        omega
      rw [h2]
      left
      omega⟩
  else c

/-- Model of Python `str.lower` on the character list of a string. -/
def pyLower (l : List Char) : List Char :=
  l.map pyLowerChar

/-- Model of Python `str.strip()`: drop whitespace from both ends. -/
def pyStrip (l : List Char) : List Char :=
  ((l.dropWhile Char.isWhitespace).reverse.dropWhile Char.isWhitespace).reverse

/-- Model of Python `s.replace("_", " ")`: a single-character replacement is a
character-wise map. -/
def replaceUnderscores (l : List Char) : List Char :=
  l.map (fun c => if c = '_' then ' ' else c)

/-- Model of Python `str.strip()` packaged on `String`; `text.strip()` is
falsy exactly when this returns the empty string. -/
def pyStripStr (s : String) : String :=
  ⟨pyStrip s.data⟩

/-! ## Key-state normaliser (`whisperfree/hotkeys.py`, `_normalise_key`)

The third-party `keyboard.normalize_name` call is outside this repository; it
is modelled as the identity on the already-delivered key-name string (the
repository function performs its own lowering, underscore replacement,
side-prefix stripping and aliasing on top of it).  `name or ""` is the
identity on strings once absent input is modelled as `""`. -/

/-- The side-qualifier stripping loop of `_normalise_key`: the first of the
prefixes `"left "`, `"right "` that matches is removed, then the loop breaks. -/
def stripSideQualifier (l : List Char) : List Char :=
  if l.take 5 = ("left ").data then l.drop 5
  else if l.take 6 = ("right ").data then l.drop 6
  else l

/-- The `replacements` alias table of `_normalise_key`: `win ↦ windows`,
`menu ↦ alt`, `control ↦ ctrl`; any other name passes through unchanged. -/
def applyReplacements (l : List Char) : List Char :=
  if l = ("win").data then ("windows").data
  else if l = ("menu").data then ("alt").data
  else if l = ("control").data then ("ctrl").data
  else l

/-- Embedding of `_normalise_key` from `whisperfree/hotkeys.py`: replace
underscores by spaces, strip surrounding whitespace, lowercase, strip one
leading side qualifier, then apply the alias table. -/
def normalise_key (name : String) : String :=
  ⟨applyReplacements (stripSideQualifier (pyLower (pyStrip (replaceUnderscores name.data))))⟩

/-! ## Hotkey state machine (`whisperfree/hotkeys.py`, `HotkeyListener`) -/

/-- Direction of a keyboard event, `event.event_type ∈ {"down", "up"}`;
events with any other type are discarded before reaching the key logic, so
only these two constructors are modelled. -/
inductive KeyDir
  | down
  | up
deriving DecidableEq, Repr

/-- One normalisable keyboard event: a direction, the raw key name carried by
the event (possibly empty for an absent name), and the value the monotonic
clock would return while handling it. -/
structure KeyEvent where
  dir : KeyDir
  name : String
  ts : ℤ
deriving DecidableEq, Repr

/-- Session signal emitted by the hotkey machine: the `on_start` / `on_stop`
callback invocations. -/
inductive HotSig
  | sessionStart
  | sessionStop
deriving DecidableEq, Repr

/-- State of a `HotkeyListener`: the required combination, the set of
currently-pressed required keys, the active flag, the timestamp of the last
accepted transition and the debounce interval in seconds. -/
structure HKState where
  required_keys : Finset String
  pressed : Finset String
  active : Bool
  last_event_ts : ℤ
  debounce : ℤ
deriving DecidableEq

/-- Embedding of `HotkeyListener._handle_event`: returns the successor state
together with the callback it invokes, if any. -/
def handle_event (s : HKState) (e : KeyEvent) : HKState × Option HotSig :=
  let key := normalise_key e.name
  if key = "" then (s, none)
  else
    match e.dir with
    | KeyDir.down =>
      if key ∉ s.required_keys then (s, none)
      else
        let pressed := insert key s.pressed
        if s.required_keys ⊆ pressed ∧ s.active = false then
          if e.ts - s.last_event_ts < s.debounce then
            ({ s with pressed := pressed }, none)
          else
            ({ s with pressed := pressed, last_event_ts := e.ts, active := true },
              some HotSig.sessionStart)
        else ({ s with pressed := pressed }, none)
    | KeyDir.up =>
      let pressed := s.pressed.erase key
      if s.active = true ∧ ¬ s.required_keys ⊆ pressed then
        ({ s with pressed := pressed, last_event_ts := e.ts, active := false },
          some HotSig.sessionStop)
      else ({ s with pressed := pressed }, none)

/-- Run `_handle_event` over a whole event sequence, collecting the emitted
session signals in order. -/
def runEvents (s : HKState) : List KeyEvent → HKState × List HotSig
  | [] => (s, [])
  | e :: rest =>
    let step := handle_event s e
    let tail := runEvents step.1 rest
    (tail.1, step.2.toList ++ tail.2)

/-- Embedding of `HotkeyListener.update_hotkey`: install the new required
combination, clear the pressed set and force the machine inactive. -/
def update_hotkey (s : HKState) (primary secondary : String) : HKState :=
  { s with required_keys := {normalise_key primary, normalise_key secondary},
           pressed := ∅, active := false }

/-- Embedding of the listener-state part of `HotkeyListener.stop`: clear the
pressed set and force the machine inactive. -/
def listener_stop (s : HKState) : HKState :=
  { s with pressed := ∅, active := false }

/-- Invariant of the hotkey machine: whenever the active flag is set, every
required key is recorded as pressed. -/
def HKInv (s : HKState) : Prop :=
  s.active = true → s.required_keys ⊆ s.pressed

/-! ## Audio capture buffer (`whisperfree/audio.py`, `AudioRecorder`) -/

/-- Observable state of an `AudioRecorder`: whether `self._stream` is set, the
buffered int16 sample blocks, and `self._frames_recorded`. -/
structure Recorder where
  streamOpen : Bool
  buffer : List (List Int)
  frames_recorded : Nat
deriving DecidableEq, Repr

/-- Outcome of a call to `AudioRecorder.start`: either the call returns
normally, or the exception raised while opening the stream propagates to the
caller (`raise` in the `except` block). -/
inductive StartOutcome
  | returned
  | raised
deriving DecidableEq, Repr

/-- Embedding of `AudioRecorder.start`.  `openOk` is the oracle for whether
`sd.InputStream(...)`/`stream.start()` succeeds.  If a stream is already set
the method logs a warning and returns; otherwise it clears the buffer and the
frame counter, then tries to open the stream; on failure it resets
`self._stream` to `None` and re-raises. -/
def recorder_start (openOk : Bool) (r : Recorder) : StartOutcome × Recorder :=
  if r.streamOpen then (StartOutcome.returned, r)
  else
    let r1 : Recorder := { r with buffer := [], frames_recorded := 0 }
    if openOk then (StartOutcome.returned, { r1 with streamOpen := true })
    else (StartOutcome.raised, r1)

/-- Embedding of `AudioRecorder.stop`: closes the stream if one is open; the
buffered blocks and the frame counter are untouched. -/
def recorder_stop (r : Recorder) : Recorder :=
  { r with streamOpen := false }

/-! ## WAV serialisation (`AudioRecorder.get_wav_bytes`)

Bytes are modelled as `Nat` values below 256.  The header is the 44-byte
canonical RIFF/WAVE header the Python `wave` module writes for a mono,
16-bit PCM file at the configured sample rate. -/

/-- Little-endian 16-bit field. -/
def u16le (n : Nat) : List Nat :=
  [n % 256, n / 256 % 256]

/-- Little-endian 32-bit field. -/
def u32le (n : Nat) : List Nat :=
  [n % 256, n / 256 % 256, n / 65536 % 256, n / 16777216 % 256]

/-- Little-endian twos-complement encoding of one int16 sample. -/
def int16le (v : Int) : List Nat :=
  u16le (v % 65536).toNat

/-- Byte serialisation of a whole sample list, two bytes per sample. -/
def int16leAll : List Int → List Nat
  | [] => []
  | v :: rest => int16le v ++ int16leAll rest

/-- Model of `np.concatenate(self._buffer)`: the blocks joined in arrival
order. -/
def concatBlocks : List (List Int) → List Int
  | [] => []
  | b :: rest => b ++ concatBlocks rest

/-- The 44-byte header written by `wave.open` with `nchannels = 1`,
`sampwidth = 2`, `framerate = rate` for a data chunk of `dataLen` bytes:
`RIFF`, riff size, `WAVE`, `fmt ` chunk (PCM tag 1, 1 channel, sample rate,
byte rate, block align 2, 16 bits), `data`, data size. -/
def wavHeader (rate dataLen : Nat) : List Nat :=
  [82, 73, 70, 70] ++ u32le (36 + dataLen) ++ [87, 65, 86, 69] ++
  [102, 109, 116, 32] ++ u32le 16 ++ u16le 1 ++ u16le 1 ++ u32le rate ++
  u32le (rate * 2) ++ u16le 2 ++ u16le 16 ++ [100, 97, 116, 97] ++ u32le dataLen

/-- WAV payload for a sample list: header followed by the serialised frames. -/
def wavEncode (rate : Nat) (samples : List Int) : List Nat :=
  wavHeader rate (2 * samples.length) ++ int16leAll samples

/-- Embedding of `AudioRecorder.get_wav_bytes`: empty bytes when no blocks
were captured, otherwise the WAV serialisation of the concatenated buffer. -/
def get_wav_bytes (rate : Nat) (r : Recorder) : List Nat :=
  if r.buffer = [] then [] else wavEncode rate (concatBlocks r.buffer)

/-- Decoding of one unsigned 16-bit value into a signed int16 sample. -/
def decodeInt16 (u : Nat) : Int :=
  if u < 32768 then (u : Int) else (u : Int) - 65536

/-- Decode consecutive little-endian byte pairs into int16 samples. -/
def decodePairs : List Nat → List Int
  | b0 :: b1 :: rest => decodeInt16 (b0 + 256 * b1) :: decodePairs rest
  | _ => []

/-- Decode the sample sequence of a WAV payload: skip the 44-byte header and
read the int16 frames. -/
def wavDecodeSamples (bytes : List Nat) : List Int :=
  decodePairs (bytes.drop 44)

/-! ## Clipboard paste protocol (`whisperfree/paste.py`, `paste_text`) -/

/-- The keystroke retry loop of `paste_text`: `for attempt in range(retries + 1)`
with `sendOk` as the oracle for whether `keyboard.send("ctrl+v")` succeeds on
a given attempt; breaks with success on the first good attempt, returns
failure once the last attempt has failed. -/
def sendAttempts (sendOk : Nat → Bool) (retries : Nat) (attempt : Nat) : Bool :=
  if sendOk attempt then true
  else if retries ≤ attempt then false
  else sendAttempts sendOk retries (attempt + 1)
termination_by retries - attempt
decreasing_by omega

/-- Embedding of the success/failure skeleton of `paste_text`: a clipboard
copy failure aborts immediately with failure; otherwise the result is that of
the keystroke retry loop started at attempt 0.  (The clipboard snapshot and
its deferred restoration do not affect the returned boolean.) -/
def paste_text (copyOk : Bool) (sendOk : Nat → Bool) (retries : Nat) : Bool :=
  if copyOk then sendAttempts sendOk retries 0 else false

/-! ## Session orchestrator (`whisperfree/app.py`, `WhisperFreeController`) -/

/-- Observable actions of the orchestrator: Qt-signal emissions, executor
submission, the paste-protocol invocation and the history append. -/
inductive Act
  | toast (msg : String) (ms : Nat)
  | showIdle
  | showRecording
  | submitWork (payload : List Nat)
  | pasteInvoke (text : String) (ok : Bool)
  | historyRecord (text : String)
deriving DecidableEq, Repr

/-- Embedding of `WhisperFreeController._handle_push_to_talk_stop`: stop the
recorder, extract the WAV bytes; when they are empty emit the
"No speech detected" toast (and the idle signal when the overlay is enabled)
and return; otherwise submit the processing work to the executor. -/
def handle_push_to_talk_stop (overlayEnabled : Bool) (rate : Nat) (r : Recorder) :
    List Act :=
  let r1 := recorder_stop r
  let audioBytes := get_wav_bytes rate r1
  if audioBytes = [] then
    Act.toast "No speech detected" 2000 :: (if overlayEnabled then [Act.showIdle] else [])
  else
    [Act.submitWork audioBytes]

/-- Embedding of `WhisperFreeController._process_session`: the transcription
call either raises (modelled as `Except.error`) or returns text; on failure a
"Transcription failed" toast then idle; on empty/whitespace-only text a
"Nothing to paste" toast then idle with no paste and no history; otherwise the
paste protocol runs, the history entry is recorded unconditionally, and only
then the idle signal is emitted.  Returns the action trace together with the
history entry created, if any. -/
def process_session (retries : Nat) (transcription : Except Unit String)
    (copyOk : Bool) (sendOk : Nat → Bool) : List Act × Option String :=
  match transcription with
  | Except.error _ => ([Act.toast "Transcription failed" 2500, Act.showIdle], none)
  | Except.ok text =>
    if pyStripStr text = "" then
      ([Act.toast "Nothing to paste" 2000, Act.showIdle], none)
    else
      let ok := paste_text copyOk sendOk retries
      ([Act.pasteInvoke text ok, Act.historyRecord text, Act.showIdle], some text)

/-! ## Helper lemmas -/

theorem pyLowerChar_toNat_of_upper (c : Char) (h : 65 ≤ c.toNat ∧ c.toNat ≤ 90) :
    (pyLowerChar c).toNat = c.toNat + 32 := by
  unfold pyLowerChar
  rw [dif_pos h]
  show (c.val + 32).toNat = c.toNat + 32
  have h32 : (32 : UInt32).toNat = 32 := rfl
  have hadd : (c.val + 32).toNat = (c.val.toNat + (32 : UInt32).toNat) % UInt32.size :=
    UInt32.toNat_add c.val 32
  have hsz : UInt32.size = 4294967296 := rfl
  rw [hadd, h32, hsz]
  have hb := h.2
  unfold Char.toNat at hb ⊢
  omega

theorem pyLowerChar_not_upper (c : Char) :
    ¬ (65 ≤ (pyLowerChar c).toNat ∧ (pyLowerChar c).toNat ≤ 90) := by
  by_cases h : 65 ≤ c.toNat ∧ c.toNat ≤ 90
  · rw [pyLowerChar_toNat_of_upper c h]
    omega
  · unfold pyLowerChar
    rw [dif_neg h]
    omega

theorem not_upper_of_mem_pyLower {l : List Char} {c : Char} (h : c ∈ pyLower l) :
    ¬ (65 ≤ c.toNat ∧ c.toNat ≤ 90) := by
  unfold pyLower at h
  rcases List.mem_map.1 h with ⟨a, _, rfl⟩
  exact pyLowerChar_not_upper a

theorem mem_of_mem_stripSideQualifier {l : List Char} {c : Char}
    (h : c ∈ stripSideQualifier l) : c ∈ l := by
  unfold stripSideQualifier at h
  split at h
  · exact List.drop_subset _ _ h
  · split at h
    · exact List.drop_subset _ _ h
    · exact h

/-- C9: the key-state normaliser is total by construction (it is a Lean
function on all of `String`), produces names with no ASCII uppercase letter,
collapses left/right side qualifiers to one canonical name, remaps the alias
table entries `win`, `menu`, `control`, and passes unrecognized names through
unchanged (the empty string maps to the empty string, which the caller treats
as a no-op event). -/
theorem normalise_key_lowercase_total :
    (∀ (s : String), ∀ c ∈ (normalise_key s).data, ¬ (65 ≤ c.toNat ∧ c.toNat ≤ 90)) ∧
    normalise_key "" = "" ∧
    normalise_key "left ctrl" = "ctrl" ∧
    normalise_key "right ctrl" = "ctrl" ∧
    normalise_key "left windows" = normalise_key "right windows" ∧
    normalise_key "Left Shift" = "shift" ∧
    normalise_key "win" = "windows" ∧
    normalise_key "menu" = "alt" ∧
    normalise_key "control" = "ctrl" ∧
    normalise_key "CTRL" = "ctrl" ∧
    normalise_key "f5" = "f5" := by
  refine ⟨?_, by decide, by decide, by decide, by decide, by decide, by decide,
    by decide, by decide, by decide, by decide⟩
  intro s c hc
  have hc2 : c ∈ applyReplacements
      (stripSideQualifier (pyLower (pyStrip (replaceUnderscores s.data)))) := hc
  unfold applyReplacements at hc2
  split at hc2
  · exact (by decide : ∀ x ∈ ("windows").data, ¬ (65 ≤ x.toNat ∧ x.toNat ≤ 90)) c hc2
  · split at hc2
    · exact (by decide : ∀ x ∈ ("alt").data, ¬ (65 ≤ x.toNat ∧ x.toNat ≤ 90)) c hc2
    · split at hc2
      · exact (by decide : ∀ x ∈ ("ctrl").data, ¬ (65 ≤ x.toNat ∧ x.toNat ≤ 90)) c hc2
      · exact not_upper_of_mem_pyLower (mem_of_mem_stripSideQualifier hc2)

/-- Witness for C9 at concrete inputs: the normalised form of `"Control"` has
no uppercase character (checked on its member `'t'`), and the empty string
maps to itself. -/
theorem normalise_key_lowercase_total_witness :
    ¬ (65 ≤ ('t' : Char).toNat ∧ ('t' : Char).toNat ≤ 90) ∧ normalise_key "" = "" :=
  ⟨normalise_key_lowercase_total.1 "Control" 't' (by decide),
    normalise_key_lowercase_total.2.1⟩

theorem runEvents_cons (s : HKState) (e : KeyEvent) (rest : List KeyEvent) :
    runEvents s (e :: rest) =
      ((runEvents (handle_event s e).1 rest).1,
        (handle_event s e).2.toList ++ (runEvents (handle_event s e).1 rest).2) := rfl

theorem handle_event_down_of_active (s : HKState) (e : KeyEvent)
    (ha : s.active = true) (hd : e.dir = KeyDir.down) :
    (handle_event s e).2 = none ∧ (handle_event s e).1.active = true := by
  rcases e with ⟨dir, name, ts⟩
  simp only at hd
  subst hd
  unfold handle_event
  by_cases hk : normalise_key name = ""
  · simp [hk, ha]
  · simp only [hk, if_neg, ite_false]
    by_cases hmem : normalise_key name ∈ s.required_keys
    · simp only [hmem, not_true_eq_false, ite_false, if_neg]
      have hguard : ¬ (s.required_keys ⊆ insert (normalise_key name) s.pressed ∧
          s.active = false) := by
        rintro ⟨-, hfalse⟩
        rw [ha] at hfalse
        simp at hfalse
      simp [hguard, ha]
    · simp [hmem, ha]

/-- C1: exactly one `SessionStart` per press cycle.  Whenever `_handle_event`
invokes `on_start` the machine ends active, and from any active state an
arbitrary sequence of further down-events (re-presses of required keys
included) invokes `on_start` zero times and leaves the machine active. -/
theorem hotkey_single_start_per_cycle :
    (∀ (s : HKState) (e : KeyEvent),
      (handle_event s e).2 = some HotSig.sessionStart → (handle_event s e).1.active = true) ∧
    (∀ (s : HKState) (es : List KeyEvent), s.active = true →
      (∀ e ∈ es, e.dir = KeyDir.down) →
      HotSig.sessionStart ∉ (runEvents s es).2 ∧ (runEvents s es).1.active = true) := by
  constructor
  · intro s e hemit
    rcases e with ⟨dir, name, ts⟩
    unfold handle_event at hemit ⊢
    by_cases hk : normalise_key name = ""
    · simp [hk] at hemit
    · cases dir with
      | down =>
        by_cases hmem : normalise_key name ∈ s.required_keys
        · by_cases hguard : s.required_keys ⊆ insert (normalise_key name) s.pressed ∧
              s.active = false
          · by_cases hdeb : ts - s.last_event_ts < s.debounce
            · simp [hk, hmem, hguard, hdeb] at hemit
            · simp [hk, hmem, hguard, hdeb]
          · simp [hk, hmem, hguard] at hemit
        · simp [hk, hmem] at hemit
      | up =>
        by_cases hcond : s.active = true ∧ ¬ s.required_keys ⊆
            s.pressed.erase (normalise_key name)
        · simp [hk, hcond] at hemit
        · simp [hk, hcond] at hemit
  · intro s es
    induction es generalizing s with
    | nil =>
      intro ha _
      simp [runEvents, ha]
    | cons e rest ih =>
      intro ha hdown
      have hstep := handle_event_down_of_active s e ha (hdown e (List.mem_cons_self e rest))
      have htail := ih (handle_event s e).1 hstep.2
        (fun x hx => hdown x (List.mem_cons_of_mem e hx))
      rw [runEvents_cons]
      constructor
      · rw [hstep.1]
        simpa using htail.1
      · exact htail.2

/-- Witness for C1: from a concrete active state with both required keys
pressed, a repeated down-event for an already-pressed key emits no further
`SessionStart` and keeps the machine active. -/
theorem hotkey_single_start_per_cycle_witness :
    HotSig.sessionStart ∉ (runEvents
      ⟨{"ctrl", "windows"}, {"ctrl", "windows"}, true, 100, 15⟩
      [⟨KeyDir.down, "ctrl", 101⟩, ⟨KeyDir.down, "windows", 102⟩]).2 ∧
    (runEvents ⟨{"ctrl", "windows"}, {"ctrl", "windows"}, true, 100, 15⟩
      [⟨KeyDir.down, "ctrl", 101⟩, ⟨KeyDir.down, "windows", 102⟩]).1.active = true :=
  hotkey_single_start_per_cycle.2
    ⟨{"ctrl", "windows"}, {"ctrl", "windows"}, true, 100, 15⟩
    [⟨KeyDir.down, "ctrl", 101⟩, ⟨KeyDir.down, "windows", 102⟩]
    rfl (by decide)

/-- Counterexample to C2 as stated: with required keys `ctrl`/`windows`, a
debounce of 15 and last accepted transition at time 85, the run
down-ctrl@100, down-windows@100, up-ctrl@105 emits a `SessionStart` whose
elapsed time (15) does not strictly exceed the threshold (15), and then a
`SessionStop` only 5 after the previous accepted transition — the stop
transition is accepted with no debounce condition at all. -/
theorem hotkey_debounce_claim_counterexample :
    (runEvents ⟨{"ctrl", "windows"}, ∅, false, 85, 15⟩
      [⟨KeyDir.down, "ctrl", 100⟩, ⟨KeyDir.down, "windows", 100⟩,
        ⟨KeyDir.up, "ctrl", 105⟩]).2 = [HotSig.sessionStart, HotSig.sessionStop] ∧
    ¬ ((100 : ℤ) - 85 > 15) ∧ ((105 : ℤ) - 100 < 15) := by decide

/-- C2 amended: only the `SessionStart` transition is debounced, and it is
accepted exactly when the elapsed time since the last accepted transition is
at least (not strictly more than) the debounce threshold; `_handle_event`
emits `SessionStart` iff the event is a down-event whose normalised key is a
required key, the full combination is pressed after it, the machine is not
already active and the debounce condition holds; it emits `SessionStop` iff
the event is an up-event with a nonempty normalised key, the machine is
active and the required set stops being fully pressed — with no time
condition. -/
theorem hotkey_debounce_start_only_characterisation (s : HKState) (e : KeyEvent) :
    ((handle_event s e).2 = some HotSig.sessionStart ↔
      (e.dir = KeyDir.down ∧ normalise_key e.name ≠ "" ∧
        normalise_key e.name ∈ s.required_keys ∧
        s.required_keys ⊆ insert (normalise_key e.name) s.pressed ∧
        s.active = false ∧ s.debounce ≤ e.ts - s.last_event_ts)) ∧
    ((handle_event s e).2 = some HotSig.sessionStop ↔
      (e.dir = KeyDir.up ∧ normalise_key e.name ≠ "" ∧ s.active = true ∧
        ¬ s.required_keys ⊆ s.pressed.erase (normalise_key e.name))) := by
  rcases e with ⟨dir, name, ts⟩
  simp only
  unfold handle_event
  by_cases hk : normalise_key name = ""
  · simp [hk]
  · cases dir with
    | down =>
      by_cases hmem : normalise_key name ∈ s.required_keys
      · by_cases hsub : s.required_keys ⊆ insert (normalise_key name) s.pressed
        · by_cases hact : s.active = false
          · by_cases hdeb : ts - s.last_event_ts < s.debounce
            · simp [hk, hmem, hsub, hact, hdeb]
            · simp [hk, hmem, hsub, hact, hdeb, not_lt.1 hdeb]
          · simp [hk, hmem, hsub, hact]
        · simp [hk, hmem, hsub]
      · simp [hk, hmem]
    | up =>
      by_cases hcond : s.active = true ∧ ¬ s.required_keys ⊆
          s.pressed.erase (normalise_key name)
      · simp [hk, hcond, hcond.1, hcond.2]
      · rw [if_neg hk]
        show ((if s.active = true ∧ ¬ s.required_keys ⊆
            s.pressed.erase (normalise_key name) then _ else _ : HKState × Option HotSig).2
            = _ ↔ _) ∧ _
        rw [if_neg hcond]
        constructor
        · constructor
          · intro h
            simp at h
          · rintro ⟨h, -⟩
            simp at h
        · constructor
          · intro h
            simp at h
          · rintro ⟨-, -, hact, hsub⟩
            exact absurd ⟨hact, hsub⟩ hcond

theorem handle_event_down_eq (s : HKState) (name : String) (ts : ℤ) :
    handle_event s ⟨KeyDir.down, name, ts⟩ =
      if normalise_key name = "" then (s, none)
      else if normalise_key name ∉ s.required_keys then (s, none)
      else if s.required_keys ⊆ insert (normalise_key name) s.pressed ∧ s.active = false then
        (if ts - s.last_event_ts < s.debounce
         then ({ s with pressed := insert (normalise_key name) s.pressed }, none)
         else ({ s with pressed := insert (normalise_key name) s.pressed, last_event_ts := ts, active := true }, some HotSig.sessionStart))
      else ({ s with pressed := insert (normalise_key name) s.pressed }, none) := rfl

theorem handle_event_up_eq (s : HKState) (name : String) (ts : ℤ) :
    handle_event s ⟨KeyDir.up, name, ts⟩ =
      if normalise_key name = "" then (s, none)
      else if s.active = true ∧ ¬ s.required_keys ⊆ s.pressed.erase (normalise_key name) then
        ({ s with pressed := s.pressed.erase (normalise_key name), last_event_ts := ts, active := false }, some HotSig.sessionStop)
      else ({ s with pressed := s.pressed.erase (normalise_key name) }, none) := rfl

/-- C10: every operation of the listener preserves the invariant that an
active machine has its full required set recorded as pressed: `_handle_event`
on any down or up event, `update_hotkey`, and `stop`. -/
theorem hotkey_active_subset_invariant :
    ∀ (s : HKState), HKInv s →
      (∀ (e : KeyEvent), HKInv (handle_event s e).1) ∧
      (∀ (p q : String), HKInv (update_hotkey s p q)) ∧
      HKInv (listener_stop s) := by
  intro s hs
  refine ⟨?_, ?_, ?_⟩
  · intro e
    rcases e with ⟨dir, name, ts⟩
    cases dir with
    | down =>
      rw [handle_event_down_eq]
      split_ifs with h1 h2 h3 h4
      · exact hs
      · intro hact
        exact (hs hact).trans (Finset.subset_insert _ _)
      · intro _
        exact h3.1
      · intro hact
        exact (hs hact).trans (Finset.subset_insert _ _)
      · exact hs
    | up =>
      rw [handle_event_up_eq]
      split_ifs with h1 h2
      · exact hs
      · intro hact
        exact Bool.noConfusion hact
      · intro hact
        by_contra hrefuse
        exact h2 ⟨hact, hrefuse⟩
  · intro p q
    intro hact
    exact Bool.noConfusion hact
  · intro hact
    exact Bool.noConfusion hact

/-- Witness for C10: the invariant is preserved from a concrete active state
under an up-event of a required key and under a hotkey update. -/
theorem hotkey_active_subset_invariant_witness :
    HKInv (handle_event ⟨{"ctrl", "windows"}, {"ctrl", "windows"}, true, 100, 15⟩
      ⟨KeyDir.up, "ctrl", 105⟩).1 ∧
    HKInv (update_hotkey ⟨{"ctrl", "windows"}, {"ctrl", "windows"}, true, 100, 15⟩
      "alt" "shift") :=
  ⟨(hotkey_active_subset_invariant
      ⟨{"ctrl", "windows"}, {"ctrl", "windows"}, true, 100, 15⟩
      (fun _ => by decide)).1 ⟨KeyDir.up, "ctrl", 105⟩,
    (hotkey_active_subset_invariant
      ⟨{"ctrl", "windows"}, {"ctrl", "windows"}, true, 100, 15⟩
      (fun _ => by decide)).2.1 "alt" "shift"⟩

/-- Counterexample to C6 as stated: calling `start` on a recorder whose
stream is already open returns normally with the state untouched — whether
the open oracle would succeed or fail — instead of raising an
`AlreadyRunningError` (no such error exists in the code; the call is a
warning-logged idempotent no-op). -/
theorem recorder_double_start_counterexample :
    recorder_start true ⟨true, [[5]], 3⟩ = (StartOutcome.returned, ⟨true, [[5]], 3⟩) ∧
    recorder_start false ⟨true, [[5]], 3⟩ = (StartOutcome.returned, ⟨true, [[5]], 3⟩) := by
  decide

/-- C6 amended: calling `start()` while a stream is already open is a silent
no-op (logged as a warning): the call returns normally, raises nothing, and
leaves every recorder field unchanged. -/
theorem recorder_double_start_silent_noop :
    ∀ (openOk : Bool) (r : Recorder), r.streamOpen = true →
      recorder_start openOk r = (StartOutcome.returned, r) := by
  intro openOk r h
  unfold recorder_start
  rw [if_pos (by rw [h])]

/-- Witness for the amended C6 at a concrete open-stream recorder. -/
theorem recorder_double_start_silent_noop_witness :
    recorder_start true ⟨true, [[1, 2], [3]], 5⟩ =
      (StartOutcome.returned, ⟨true, [[1, 2], [3]], 5⟩) :=
  recorder_double_start_silent_noop true ⟨true, [[1, 2], [3]], 5⟩ rfl

/-- Counterexample to C7 as stated: when the stream cannot be opened, `start`
on a closed recorder holding one buffered block and a nonzero frame count
raises, but does not leave every observable field unchanged — the buffered
blocks and the recorded-frame count have been cleared before the open was
attempted. -/
theorem recorder_start_failure_counterexample :
    recorder_start false ⟨false, [[7]], 2⟩ = (StartOutcome.raised, ⟨false, [], 0⟩) ∧
    (recorder_start false ⟨false, [[7]], 2⟩).2 ≠ ⟨false, [[7]], 2⟩ := by
  decide

/-- C7 amended: if the underlying input stream cannot be opened, `start()`
propagates the underlying exception (there is no dedicated `DeviceError`
type) and leaves no partial stream open (`self._stream` is reset to `None`),
but the buffered sample blocks and the recorded-frame count have already been
cleared to the fresh-session state. -/
theorem recorder_start_failure_clears_buffer :
    ∀ (r : Recorder), r.streamOpen = false →
      recorder_start false r =
        (StartOutcome.raised, ⟨false, [], 0⟩) := by
  intro r h
  rcases r with ⟨so, buf, fr⟩
  simp only at h
  subst h
  rfl

/-- Witness for the amended C7 at a concrete closed recorder with buffered
audio. -/
theorem recorder_start_failure_clears_buffer_witness :
    recorder_start false ⟨false, [[1, 2]], 7⟩ = (StartOutcome.raised, ⟨false, [], 0⟩) :=
  recorder_start_failure_clears_buffer ⟨false, [[1, 2]], 7⟩ rfl

theorem decodePairs_int16le (v : Int) (h1 : -32768 ≤ v) (h2 : v ≤ 32767)
    (rest : List Nat) :
    decodePairs (int16le v ++ rest) = v :: decodePairs rest := by
  show decodePairs ((v % 65536).toNat % 256 :: (v % 65536).toNat / 256 % 256 :: rest) = _
  rw [decodePairs]
  have hval : decodeInt16 ((v % 65536).toNat % 256 + 256 * ((v % 65536).toNat / 256 % 256)) = v := by
    unfold decodeInt16
    split
    · omega
    · omega
  rw [hval]

theorem decodePairs_int16leAll (samples : List Int)
    (h : ∀ v ∈ samples, -32768 ≤ v ∧ v ≤ 32767) :
    decodePairs (int16leAll samples) = samples := by
  induction samples with
  | nil => rfl
  | cons v rest ih =>
    have hv := h v (List.mem_cons_self v rest)
    rw [int16leAll, decodePairs_int16le v hv.1 hv.2]
    rw [ih (fun x hx => h x (List.mem_cons_of_mem v hx))]

theorem wavHeader_length (rate dataLen : Nat) : (wavHeader rate dataLen).length = 44 := by
  simp [wavHeader, u32le, u16le]

theorem wavDecode_wavEncode (rate : Nat) (samples : List Int)
    (h : ∀ v ∈ samples, -32768 ≤ v ∧ v ≤ 32767) :
    wavDecodeSamples (wavEncode rate samples) = samples := by
  unfold wavDecodeSamples wavEncode
  rw [show (44 : Nat) = (wavHeader rate (2 * samples.length)).length from
    (wavHeader_length rate (2 * samples.length)).symm]
  rw [List.drop_left]
  exact decodePairs_int16leAll samples h

theorem concatBlocks_length_uniform (blocks : List (List Int)) (B : Nat)
    (h : ∀ b ∈ blocks, b.length = B) :
    (concatBlocks blocks).length = blocks.length * B := by
  induction blocks with
  | nil => simp [concatBlocks]
  | cons b rest ih =>
    rw [concatBlocks, List.length_append, h b (List.mem_cons_self b rest),
      ih (fun x hx => h x (List.mem_cons_of_mem b hx))]
    simp [List.length_cons]
    ring

theorem mem_concatBlocks {blocks : List (List Int)} {v : Int}
    (hv : v ∈ concatBlocks blocks) : ∃ b ∈ blocks, v ∈ b := by
  induction blocks with
  | nil => simp [concatBlocks] at hv
  | cons b rest ih =>
    rw [concatBlocks, List.mem_append] at hv
    rcases hv with hv | hv
    · exact ⟨b, List.mem_cons_self b rest, hv⟩
    · rcases ih hv with ⟨x, hx, hvx⟩
      exact ⟨x, List.mem_cons_of_mem b hx, hvx⟩

/-- C8: `get_wav_bytes` returns an empty byte string when no blocks were
captured; otherwise the payload decodes (past the canonical 44-byte mono
16-bit PCM header at the configured rate) to exactly the buffered sample
sequence in arrival order, and for N blocks of B samples each the decoded
sample count is N×B. -/
theorem wav_roundtrip_and_counts :
    ∀ (rate : Nat) (r : Recorder) (N B : Nat),
      (∀ b ∈ r.buffer, ∀ v ∈ b, -32768 ≤ v ∧ v ≤ 32767) →
      (r.buffer = [] → get_wav_bytes rate r = []) ∧
      (r.buffer ≠ [] →
        wavDecodeSamples (get_wav_bytes rate r) = concatBlocks r.buffer ∧
        (r.buffer.length = N → (∀ b ∈ r.buffer, b.length = B) →
          (wavDecodeSamples (get_wav_bytes rate r)).length = N * B)) := by
  intro rate r N B hrange
  constructor
  · intro hempty
    unfold get_wav_bytes
    rw [if_pos hempty]
  · intro hne
    have hbytes : get_wav_bytes rate r = wavEncode rate (concatBlocks r.buffer) := by
      unfold get_wav_bytes
      rw [if_neg hne]
    have hsamples : ∀ v ∈ concatBlocks r.buffer, -32768 ≤ v ∧ v ≤ 32767 := by
      intro v hv
      rcases mem_concatBlocks hv with ⟨b, hb, hvb⟩
      exact hrange b hb v hvb
    have hdec : wavDecodeSamples (get_wav_bytes rate r) = concatBlocks r.buffer := by
      rw [hbytes]
      exact wavDecode_wavEncode rate (concatBlocks r.buffer) hsamples
    refine ⟨hdec, ?_⟩
    intro hN hB
    rw [hdec, concatBlocks_length_uniform r.buffer B hB, hN]

/-- Witness for C8 at a concrete two-block capture of two samples each. -/
theorem wav_roundtrip_and_counts_witness :
    wavDecodeSamples (get_wav_bytes 8000 ⟨false, [[1, -2], [3, 32767]], 4⟩) =
      concatBlocks [[1, -2], [3, 32767]] ∧
    (wavDecodeSamples (get_wav_bytes 8000 ⟨false, [[1, -2], [3, 32767]], 4⟩)).length =
      2 * 2 :=
  ⟨((wav_roundtrip_and_counts 8000 ⟨false, [[1, -2], [3, 32767]], 4⟩ 2 2
      (by decide)).2 (by decide)).1,
    ((wav_roundtrip_and_counts 8000 ⟨false, [[1, -2], [3, 32767]], 4⟩ 2 2
      (by decide)).2 (by decide)).2 rfl (by decide)⟩

theorem sendAttempts_all_fail_aux (retries : Nat) :
    ∀ (d attempt : Nat), retries - attempt ≤ d →
      sendAttempts (fun _ => false) retries attempt = false := by
  intro d
  induction d with
  | zero =>
    intro attempt h
    rw [sendAttempts]
    simp only [Bool.false_eq_true, if_false]
    rw [if_pos (by omega)]
  | succ d ih =>
    intro attempt h
    rw [sendAttempts]
    simp only [Bool.false_eq_true, if_false]
    by_cases hstop : retries ≤ attempt
    · rw [if_pos hstop]
    · rw [if_neg hstop]
      exact ih (attempt + 1) (by omega)

/-- C4: for a session that captured zero audio blocks, handling the stop
signal yields empty WAV bytes, surfaces the "No speech detected" notice
(resetting the overlay to idle when it is enabled) and never submits any
transcription work to the executor. -/
theorem orchestrator_empty_capture_no_transcription :
    ∀ (overlayEnabled : Bool) (rate : Nat) (r : Recorder), r.buffer = [] →
      get_wav_bytes rate (recorder_stop r) = [] ∧
      handle_push_to_talk_stop overlayEnabled rate r =
        Act.toast "No speech detected" 2000 ::
          (if overlayEnabled then [Act.showIdle] else []) ∧
      (∀ payload, Act.submitWork payload ∉ handle_push_to_talk_stop overlayEnabled rate r) := by
  intro overlayEnabled rate r hempty
  have hwav : get_wav_bytes rate (recorder_stop r) = [] := by
    unfold get_wav_bytes recorder_stop
    rw [if_pos hempty]
  have htrace : handle_push_to_talk_stop overlayEnabled rate r =
      Act.toast "No speech detected" 2000 ::
        (if overlayEnabled then [Act.showIdle] else []) := by
    unfold handle_push_to_talk_stop
    dsimp only
    rw [hwav]
    rw [if_pos rfl]
  refine ⟨hwav, htrace, ?_⟩
  intro payload hmem
  rw [htrace] at hmem
  cases overlayEnabled with
  | true => simp at hmem
  | false => simp at hmem

/-- Witness for C4 at a concrete zero-block recorder with the overlay
enabled. -/
theorem orchestrator_empty_capture_no_transcription_witness :
    handle_push_to_talk_stop true 16000 ⟨true, [], 0⟩ =
      Act.toast "No speech detected" 2000 :: (if true then [Act.showIdle] else []) ∧
    Act.submitWork [1, 2, 3] ∉ handle_push_to_talk_stop true 16000 ⟨true, [], 0⟩ :=
  ⟨(orchestrator_empty_capture_no_transcription true 16000 ⟨true, [], 0⟩ rfl).2.1,
    (orchestrator_empty_capture_no_transcription true 16000 ⟨true, [], 0⟩ rfl).2.2 [1, 2, 3]⟩

/-- C3: for a session whose transcription returns non-whitespace text, the
orchestrator invokes the paste protocol and then records the history entry
with the transcribed text whatever boolean `paste_text` returns — in
particular also when the clipboard copy or all `retries + 1` keystroke
attempts fail, in which case `paste_text` returns failure — and the idle
reset comes only after the history record. -/
theorem orchestrator_paste_then_history_unconditional :
    ∀ (retries : Nat) (text : String) (copyOk : Bool) (sendOk : Nat → Bool),
      pyStripStr text ≠ "" →
      process_session retries (Except.ok text) copyOk sendOk =
        ([Act.pasteInvoke text (paste_text copyOk sendOk retries),
          Act.historyRecord text, Act.showIdle], some text) ∧
      paste_text copyOk (fun _ => false) retries = false := by
  intro retries text copyOk sendOk htext
  constructor
  · unfold process_session
    dsimp only
    rw [if_neg htext]
  · unfold paste_text
    cases copyOk with
    | true =>
      rw [if_pos rfl]
      exact sendAttempts_all_fail_aux retries retries 0 (by omega)
    | false => rfl

/-- Witness for C3: with one configured retry and every keystroke attempt
failing, the paste protocol reports failure and the history entry is still
recorded, followed by the idle reset. -/
theorem orchestrator_paste_then_history_unconditional_witness :
    process_session 1 (Except.ok "hello") true (fun _ => false) =
      ([Act.pasteInvoke "hello" (paste_text true (fun _ => false) 1),
        Act.historyRecord "hello", Act.showIdle], some "hello") ∧
    paste_text true (fun _ => false) 1 = false :=
  orchestrator_paste_then_history_unconditional 1 "hello" true (fun _ => false) (by decide)

/-- C5: for a session whose transcription succeeds with empty or
whitespace-only text, the orchestrator emits the "Nothing to paste" notice
and the idle reset, creates no history entry, and neither the paste protocol
nor any other paste action appears in the trace. -/
theorem orchestrator_whitespace_no_paste_no_history :
    ∀ (retries : Nat) (text : String) (copyOk : Bool) (sendOk : Nat → Bool),
      pyStripStr text = "" →
      process_session retries (Except.ok text) copyOk sendOk =
        ([Act.toast "Nothing to paste" 2000, Act.showIdle], none) ∧
      (∀ t ok, Act.pasteInvoke t ok ∉ (process_session retries (Except.ok text) copyOk sendOk).1) ∧
      (∀ t, Act.historyRecord t ∉ (process_session retries (Except.ok text) copyOk sendOk).1) := by
  intro retries text copyOk sendOk htext
  have htrace : process_session retries (Except.ok text) copyOk sendOk =
      ([Act.toast "Nothing to paste" 2000, Act.showIdle], none) := by
    unfold process_session
    dsimp only
    rw [if_pos htext]
  refine ⟨htrace, ?_, ?_⟩
  · intro t ok hmem
    rw [htrace] at hmem
    simp at hmem
  · intro t hmem
    rw [htrace] at hmem
    simp at hmem

/-- Witness for C5 at the whitespace-only transcription `"  "`. -/
theorem orchestrator_whitespace_no_paste_no_history_witness :
    process_session 1 (Except.ok "  ") true (fun _ => true) =
      ([Act.toast "Nothing to paste" 2000, Act.showIdle], none) ∧
    Act.historyRecord "  " ∉ (process_session 1 (Except.ok "  ") true (fun _ => true)).1 :=
  ⟨(orchestrator_whitespace_no_paste_no_history 1 "  " true (fun _ => true) (by decide)).1,
    (orchestrator_whitespace_no_paste_no_history 1 "  " true (fun _ => true) (by decide)).2.2 "  "⟩
